import Mathlib

/-!
Shallow embedding of the three macOS state-watcher providers of qmk-hid-host
(`src/providers/layout/macos.rs`, `src/providers/volume/macos.rs`,
`src/providers/media/macos.rs`).

Modelling conventions:
  - `f32` values (volume scalars, thresholds) are embedded as `ℚ`; the source's
    arithmetic (`abs`, subtraction, `* 100.0`, `.round()`, `as u8`) is translated
    to exact rational arithmetic.
  - Rust strings are embedded as Lean `String`; byte-level operations are done
    through an explicit UTF-8 encoder on the character list (`strBytes`), since
    Rust's `str::as_bytes` is the UTF-8 encoding.
  - Fallible external calls (OS reads, subprocess spawns) are embedded as
    `Option`-valued inputs to each polling tick: `none` is the call failing.
  - A frame pushed to the output channel is a `List ℕ` of byte values; a tick
    returns the list of frames it pushes (in push order) plus its new state.
  - Each provider's polling loop is a fold of its tick function over the list of
    per-iteration observations; the connection flag read at the top of each
    iteration is modelled by `providerRun`.
-/

set_option maxRecDepth 40000

/-- Modelled from the spec: the repository's `DataType` enum (`src/data_type.rs`)
is not among the provided sources, only its uses are. The spec fixes the `Layout`
tag to byte 0 and the `Volume` tag to byte 2 (the end-to-end examples of spec §8);
it leaves the two media tags as unspecified small integers, so representative
values 1 and 3 are chosen here — no theorem below depends on those two values. -/
inductive DataType where
  | Layout
  | Volume
  | MediaArtist
  | MediaTitle
deriving DecidableEq

def dataTypeByte : DataType → ℕ
  | DataType.Layout => 0
  | DataType.Volume => 2
  | DataType.MediaArtist => 1
  | DataType.MediaTitle => 3

/-- Rust `str::starts_with`, on the character list of the string. -/
def strStartsWith (s pat : String) : Bool :=
  pat.data.isPrefixOf s.data

/-- Character count of a string (used only as recursion fuel below). -/
def strLen (s : String) : ℕ :=
  s.data.length

/-- Drop the first `n` characters of a string. -/
def strDrop (s : String) (n : ℕ) : String :=
  String.mk (s.data.drop n)

/-- Fuel-driven core of Rust `str::trim_start_matches`: repeatedly strip the
pattern from the front while it is a prefix. Each strip of a nonempty pattern
removes at least one character, so `strLen s` fuel is always enough. -/
def trimStartMatchesAux (pat : String) : ℕ → String → String
  | 0, s => s
  | Nat.succ fuel, s =>
    if strStartsWith s pat = true ∧ strLen pat ≠ 0 then
      trimStartMatchesAux pat fuel (strDrop s (strLen pat))
    else s

/-- Rust `full_layout.trim_start_matches(pat)`. -/
def trim_start_matches (s pat : String) : String :=
  trimStartMatchesAux pat (strLen s) s

/-- UTF-8 encoding of one character (Rust `str::as_bytes`, per character). -/
def utf8EncodeChar (c : Char) : List ℕ :=
  let n := c.toNat
  if n < 128 then [n]
  else if n < 2048 then [192 + n / 64, 128 + n % 64]
  else if n < 65536 then [224 + n / 4096, 128 + (n / 64) % 64, 128 + n % 64]
  else [240 + n / 262144, 128 + (n / 4096) % 64, 128 + (n / 64) % 64, 128 + n % 64]

/-- The UTF-8 byte sequence of a string (Rust `value.as_bytes()`). -/
def strBytes (s : String) : List ℕ :=
  (s.data.map utf8EncodeChar).flatten

namespace Layout

/-- `create_layout_map` in `layout/macos.rs`: the static name-to-code table,
embedded as the lookup function of the three-entry `HashMap`. -/
def layout_map_get (layout_name : String) : Option String :=
  if layout_name = "U.S." then some "en"
  else if layout_name = "ABC" then some "en"
  else if layout_name = "Russian" then some "ru"
  else none

/-- `extract_layout_name` in `layout/macos.rs`. -/
def extract_layout_name (full_layout : String) : Option String :=
  if strStartsWith full_layout "com.apple.keylayout." = true then
    some (trim_start_matches full_layout "com.apple.keylayout.")
  else none

/-- `get_keyboard_layout_code` in `layout/macos.rs`. -/
def get_keyboard_layout_code (layout : String) : Option String :=
  match extract_layout_name layout with
  | some extracted_layout => layout_map_get extracted_layout
  | none => none

/-- `send_data` in `layout/macos.rs`: look the value up in the configured
catalog; on a hit push `[Layout tag, index as u8]`, on a miss push nothing. -/
def send_data (value : String) (layouts : List String) : List (List ℕ) :=
  match layouts.findIdx? (fun r => r == value) with
  | some index => [[dataTypeByte DataType.Layout, index % 256]]
  | none => []

/-- One iteration of the polling loop body in `LayoutProvider::start`
(`layout/macos.rs` lines 173-183): `os_layout` is the result of
`get_keyboard_layout()` this tick (`none` on a failed OS read); the state is
`synced_layout`. Note the source assigns `synced_layout = layout_code.clone()`
before `send_data` performs the catalog lookup. -/
def tick (layouts : List String) (synced_layout : String) (os_layout : Option String) :
    List (List ℕ) × String :=
  match os_layout with
  | some layout =>
    match get_keyboard_layout_code layout with
    | some layout_code =>
      if synced_layout ≠ layout_code then
        (send_data layout_code layouts, layout_code)
      else ([], synced_layout)
    | none => ([], synced_layout)
  | none => ([], synced_layout)

end Layout

namespace Volume

/-- `const MIN_VOLUME_CHANGE: f32 = 0.05` in `volume/macos.rs`. -/
def MIN_VOLUME_CHANGE : ℚ := 5/100

/-- `const MIN_VOLUME_SEND_THRESHOLD: u8 = 1` in `volume/macos.rs`. -/
def MIN_VOLUME_SEND_THRESHOLD : ℕ := 1

/-- `let mut synced_volume = 0.0` in `VolumeProvider::start`. -/
def initial_volume : ℚ := 0

/-- Rust `x.round() as u8` on a nonnegative `f32` product: round half up, then
clamp into `u8` range. (For negative inputs Rust rounds half away from zero and
the `as u8` cast saturates at 0; this model's floor-based rounding followed by
`Int.toNat` clamps those to 0 as well, differing from the source nowhere in the
final byte.) -/
def roundToU8 (x : ℚ) : ℕ :=
  min 255 ⌊x + 1/2⌋.toNat

/-- `send_data` in `volume/macos.rs`: quantize to a percentage and push
`[Volume tag, percentage]` only above the send threshold. -/
def send_data (volume : ℚ) : List (List ℕ) :=
  let volume_percentage := roundToU8 (volume * 100)
  if volume_percentage > MIN_VOLUME_SEND_THRESHOLD then
    [[dataTypeByte DataType.Volume, volume_percentage]]
  else []

/-- One iteration of the polling loop body in `VolumeProvider::start`
(`volume/macos.rs` lines 132-158): `reading` is the composed result of
`get_default_output_device` and `get_device_volume` (`none` if either fails). -/
def tick (synced_volume : ℚ) (reading : Option ℚ) : List (List ℕ) × ℚ :=
  match reading with
  | some volume =>
    if |volume - synced_volume| > MIN_VOLUME_CHANGE then
      (send_data volume, volume)
    else ([], synced_volume)
  | none => ([], synced_volume)

/-- The frames pushed over a whole sequence of polling iterations. -/
def runFrames (synced_volume : ℚ) : List (Option ℚ) → List (List ℕ)
  | [] => []
  | r :: rest => (tick synced_volume r).1 ++ runFrames (tick synced_volume r).2 rest

end Volume

namespace Media

/-- The media provider's loop state: the `USE_APPLE_SCRIPT` latch (a static
`AtomicBool` in the source) plus the mutable `last_artist` and `last_title`
variables of `MediaProvider::start`. -/
structure State where
  use_apple_script : Bool
  last_artist : String
  last_title : String
deriving DecidableEq

/-- `send_data` in `media/macos.rs`: the frame is the UTF-8 payload with the
payload length (`data.len() as u8`, i.e. reduced mod 256) and the kind tag
inserted at the front; the `data.truncate(30)` line is commented out in the
source. -/
def send_data (data_type : DataType) (value : String) : List ℕ :=
  let data := strBytes value
  dataTypeByte data_type :: data.length % 256 :: data

/-- `send_media_data` in `media/macos.rs`: artist and title are transliterated,
compared against their last-emitted values and pushed independently, artist
first; each push also updates the corresponding last-emitted field. The
transliteration table (`translit` crate glue) is an external pure collaborator,
so it is a function parameter here. Returns (frames, last_artist, last_title). -/
def send_media_data (translit : String → String) (artist title : Option String)
    (last_artist last_title : String) : List (List ℕ) × String × String :=
  let artistStep :=
    match artist with
    | some new_artist =>
      let artist_transliterated := translit new_artist
      if artist_transliterated ≠ last_artist then
        ([send_data DataType.MediaArtist artist_transliterated], artist_transliterated)
      else ([], last_artist)
    | none => ([], last_artist)
  let titleStep :=
    match title with
    | some new_title =>
      let title_transliterated := translit new_title
      if title_transliterated ≠ last_title then
        ([send_data DataType.MediaTitle title_transliterated], title_transliterated)
      else ([], last_title)
    | none => ([], last_title)
  (artistStep.1 ++ titleStep.1, artistStep.2, titleStep.2)

/-- Rust `str::trim` on the character list: whitespace stripped from both ends. -/
def strTrim (s : String) : String :=
  String.mk (((s.data.dropWhile Char.isWhitespace).reverse.dropWhile Char.isWhitespace).reverse)

/-- Rust `str::split(sep)` for a one-character separator: the (n+1) chunks
between the n separator occurrences, empty chunks included. (The recursive
result is never `[]`, so `headI`/`tail` read its first chunk exactly.) -/
def splitOnChar (c : Char) : List Char → List (List Char)
  | [] => [[]]
  | x :: xs =>
    let r := splitOnChar c xs
    if x = c then [] :: r else (x :: r.headI) :: r.tail

/-- `execute_applescript` in `media/macos.rs`: `spawn_result` is the outcome of
`Command::new("osascript").output()` — `none` when the spawn itself fails,
`some (success, stdout)` otherwise. On success the captured output is trimmed
and an empty trimmed result is reported as a failure. -/
def execute_applescript (spawn_result : Option (Bool × String)) : Option String :=
  match spawn_result with
  | some (true, stdout) =>
    let result := strTrim stdout
    if result.data.isEmpty then none else some result
  | some (false, _) => none
  | none => none

/-- `get_now_playing_via_applescript` in `media/macos.rs`: split the combined
output on the pipe character and accept exactly two parts. -/
def get_now_playing_via_applescript (spawn_result : Option (Bool × String)) :
    Option (String × String) :=
  match execute_applescript spawn_result with
  | some result =>
    if result.data.isEmpty then none
    else
      match splitOnChar '|' result.data with
      | [p0, p1] => some (String.mk p0, String.mk p1)
      | _ => none
  | none => none

/-- One iteration of the polling loop body in `MediaProvider::start`
(`media/macos.rs` lines 225-253). `primary` is the observation of the
`MPNowPlayingInfoCenter` path: `none` when `get_now_playing_info` returns no
dictionary, `some (artist, title)` the two optional fields `get_media_data`
extracts. `spawn_result` is the `osascript` outcome for the fallback path.
The `USE_APPLE_SCRIPT` latch is stored in the state. -/
def tick (translit : String → String) (st : State)
    (primary : Option (Option String × Option String))
    (spawn_result : Option (Bool × String)) : List (List ℕ) × State :=
  if st.use_apple_script then
    match get_now_playing_via_applescript spawn_result with
    | some (artist, title) =>
      let r := send_media_data translit (some artist) (some title) st.last_artist st.last_title
      (r.1, { st with last_artist := r.2.1, last_title := r.2.2 })
    | none => ([], st)
  else
    match primary with
    | some (artist, title) =>
      if artist.isNone || title.isNone then
        ([], { st with use_apple_script := true })
      else
        if artist.isSome && title.isSome then
          let r := send_media_data translit artist title st.last_artist st.last_title
          (r.1, { st with last_artist := r.2.1, last_title := r.2.2 })
        else ([], st)
    | none => ([], { st with use_apple_script := true })

/-- The media polling loop over a list of per-iteration observations:
returns all frames pushed (in order) and the final state. -/
def run (translit : String → String) (st : State) :
    List (Option (Option String × Option String) × Option (Bool × String)) →
      List (List ℕ) × State
  | [] => ([], st)
  | (p, sp) :: rest =>
    let r := tick translit st p sp
    let r2 := run translit r.2 rest
    (r.1 ++ r2.1, r2.2)

/-- A tick observation on which the primary strategy fails to yield a complete
(artist, title) pair: no dictionary at all, or either extracted field absent. -/
def primaryIncomplete (primary : Option (Option String × Option String)) : Prop :=
  primary = none ∨ ∃ a t, primary = some (a, t) ∧ (a = none ∨ t = none)

end Media

/-- A provider polling loop with its cooperative cancellation check: each list
element is one loop iteration, pairing the connection flag the iteration
observes at its top with the external observation its body would consume.
A `false` flag exits the loop before the body runs, so that iteration (and
everything after it) contributes no frames. -/
def providerRun {σ ι : Type} (tickFn : σ → ι → List (List ℕ) × σ) :
    σ → List (Bool × ι) → List (List ℕ)
  | _, [] => []
  | st, (connected, i) :: rest =>
    if connected then
      (tickFn st i).1 ++ providerRun tickFn (tickFn st i).2 rest
    else []

/-! ### Shared helper lemmas -/

theorem volume_tick_frames_eq (synced_volume v : ℚ) :
    (Volume.tick synced_volume (some v)).1 =
      (if |v - synced_volume| > Volume.MIN_VOLUME_CHANGE then Volume.send_data v else []) := by
  simp only [Volume.tick]
  split <;> rfl

theorem volume_send_data_ne_nil_iff (v : ℚ) :
    Volume.send_data v ≠ [] ↔ Volume.roundToU8 (v * 100) > 1 := by
  simp only [Volume.send_data, Volume.MIN_VOLUME_SEND_THRESHOLD]
  split <;> simp_all

theorem volume_tick_emits_iff (synced_volume v : ℚ) :
    (Volume.tick synced_volume (some v)).1 ≠ [] ↔
      |v - synced_volume| > Volume.MIN_VOLUME_CHANGE ∧ Volume.roundToU8 (v * 100) > 1 := by
  rw [volume_tick_frames_eq]
  split
  · rw [volume_send_data_ne_nil_iff]
    simp_all
  · simp_all

theorem roundToU8_gt_one_of (v : ℚ) (h : v > Volume.MIN_VOLUME_CHANGE) :
    Volume.roundToU8 (v * 100) > 1 := by
  rw [Volume.MIN_VOLUME_CHANGE] at h
  have h2 : (2:ℤ) ≤ ⌊v * 100 + 1/2⌋ := by
    rw [Int.le_floor]
    push_cast
    linarith
  simp only [Volume.roundToU8]
  omega

theorem roundToU8_le_one_of_nonpos (v : ℚ) (h : v ≤ 0) :
    ¬ Volume.roundToU8 (v * 100) > 1 := by
  have h2 : ⌊v * 100 + 1/2⌋ ≤ (0:ℤ) := by
    have hle : ⌊v * 100 + 1/2⌋ ≤ ⌊(1:ℚ)/2⌋ := Int.floor_le_floor (by nlinarith)
    have h0 : ⌊(1:ℚ)/2⌋ = 0 := by norm_num
    omega
  simp only [Volume.roundToU8]
  omega

theorem volume_run_const_aux (c : ℚ) (hc : c ≤ Volume.MIN_VOLUME_CHANGE) :
    ∀ (n : ℕ) (st : ℚ), st = 0 ∨ st = c →
      Volume.runFrames st (List.replicate n (some c)) = [] := by
  intro n
  induction n with
  | zero =>
    intro st _
    simp [Volume.runFrames]
  | succ k ih =>
    intro st hst
    rw [List.replicate_succ]
    simp only [Volume.runFrames]
    have hframes : (Volume.tick st (some c)).1 = [] := by
      rcases hst with h0 | hc2
      · subst h0
        by_contra hne
        have h := (volume_tick_emits_iff 0 c).1 hne
        have hneg : c ≤ 0 := by
          rcases le_or_lt c 0 with h' | h'
          · exact h'
          · exfalso
            have habs := h.1
            rw [sub_zero, abs_of_pos h'] at habs
            exact absurd habs (not_lt.mpr hc)
        exact absurd h.2 (roundToU8_le_one_of_nonpos c hneg)
      · by_contra hne
        rw [hc2] at hne
        have habs := ((volume_tick_emits_iff c c).1 hne).1
        rw [sub_self, abs_zero] at habs
        rw [Volume.MIN_VOLUME_CHANGE] at habs
        norm_num at habs
    have hstate : (Volume.tick st (some c)).2 = 0 ∨ (Volume.tick st (some c)).2 = c := by
      simp only [Volume.tick]
      split
      · exact Or.inr rfl
      · simpa using hst
    rw [hframes, List.nil_append]
    exact ih _ hstate

theorem providerRun_disconnect {σ ι : Type} (tickFn : σ → ι → List (List ℕ) × σ) :
    ∀ (l1 : List (Bool × ι)) (st : σ) (x : ι) (l2 : List (Bool × ι)),
      providerRun tickFn st (l1 ++ (false, x) :: l2) = providerRun tickFn st l1 := by
  intro l1
  induction l1 with
  | nil =>
    intro st x l2
    simp [providerRun]
  | cons hd tl ih =>
    intro st x l2
    obtain ⟨b, i⟩ := hd
    cases b
    · simp [providerRun]
    · simp only [List.cons_append, providerRun, if_pos]
      congr 1
      exact ih _ x l2

/-! ### Claim theorems for the Volume provider and the shutdown bound -/

/-- Claim C3, counterexample to the claim as stated: with the stored
last-emitted volume 0, the two raw readings 1/100 then 6/100 are within 0.05 of
each other, yet it is the second reading, not the first, that causes an
emission — refuting the clause that for two readings within 0.05 of each other
at most the *first* causes an emission. -/
theorem volume_threshold_first_only_counterexample :
    |(1:ℚ)/100 - 6/100| ≤ Volume.MIN_VOLUME_CHANGE ∧
    (Volume.tick 0 (some (1/100))).1 = [] ∧
    (Volume.tick (Volume.tick 0 (some (1/100))).2 (some (6/100))).1 ≠ [] := by
  refine ⟨?_, ?_, ?_⟩
  · rw [Volume.MIN_VOLUME_CHANGE, abs_le]
    constructor <;> norm_num
  · norm_num [Volume.tick, Volume.MIN_VOLUME_CHANGE, abs_of_nonneg]
  · rw [show (Volume.tick 0 (some (1/100))).2 = 0 by
      norm_num [Volume.tick, Volume.MIN_VOLUME_CHANGE, abs_of_nonneg]]
    rw [volume_tick_emits_iff]
    refine ⟨?_, roundToU8_gt_one_of _ (by norm_num [Volume.MIN_VOLUME_CHANGE])⟩
    norm_num [Volume.MIN_VOLUME_CHANGE, abs_of_nonneg]

/-- Claim C3 (amended): for a successfully observed raw volume `v` and stored
`last_emitted_volume`, a Volume frame is sent on that tick iff
`abs(v - last_emitted_volume) > 0.05` and `round(v * 100) > 1`; consequently,
for two consecutive readings within 0.05 of each other at most ONE causes an
emission — if the first causes one, the second cannot — though it may be the
second rather than the first that does. -/
theorem volume_emission_condition (synced_volume v : ℚ) :
    ((Volume.tick synced_volume (some v)).1 ≠ [] ↔
      |v - synced_volume| > Volume.MIN_VOLUME_CHANGE ∧ Volume.roundToU8 (v * 100) > 1) ∧
    (∀ v2 : ℚ, |v - v2| ≤ Volume.MIN_VOLUME_CHANGE →
      (Volume.tick synced_volume (some v)).1 ≠ [] →
      (Volume.tick (Volume.tick synced_volume (some v)).2 (some v2)).1 = []) := by
  constructor
  · exact volume_tick_emits_iff _ _
  · intro v2 hclose hemit
    have hthr : |v - synced_volume| > Volume.MIN_VOLUME_CHANGE :=
      ((volume_tick_emits_iff _ _).1 hemit).1
    have hst : (Volume.tick synced_volume (some v)).2 = v := by
      simp only [Volume.tick]
      rw [if_pos hthr]
    rw [hst]
    by_contra hne
    have habs := ((volume_tick_emits_iff v v2).1 hne).1
    rw [abs_sub_comm] at habs
    exact absurd habs (not_lt.mpr hclose)

/-- Witness for `volume_emission_condition` at last-emitted 0, readings 1/10
then 12/100 (within 0.05 of each other): the first emits, the second does not. -/
theorem volume_emission_condition_witness :
    (Volume.tick 0 (some (1/10))).1 ≠ [] ∧
    (Volume.tick (Volume.tick 0 (some (1/10))).2 (some (12/100))).1 = [] := by
  have hemit : (Volume.tick 0 (some (1/10))).1 ≠ [] :=
    ((volume_emission_condition 0 (1/10)).1).mpr
      ⟨by norm_num [Volume.MIN_VOLUME_CHANGE, abs_of_nonneg],
       roundToU8_gt_one_of _ (by norm_num [Volume.MIN_VOLUME_CHANGE])⟩
  refine ⟨hemit, (volume_emission_condition 0 (1/10)).2 (12/100) ?_ hemit⟩
  rw [Volume.MIN_VOLUME_CHANGE, abs_le]
  constructor <;> norm_num

/-- Claim C6: once a loop iteration observes the connection flag false, the
loop exits before running its body, so that iteration and everything after it
contribute no frames: the frames of the whole run equal the frames of the
iterations strictly before the disconnected observation. Stated for all three
providers' polling loops. -/
theorem shutdown_no_further_frames :
    (∀ (layouts : List String) (st : String) (x : Option String)
        (l1 l2 : List (Bool × Option String)),
      providerRun (Layout.tick layouts) st (l1 ++ (false, x) :: l2) =
        providerRun (Layout.tick layouts) st l1) ∧
    (∀ (st : ℚ) (x : Option ℚ) (l1 l2 : List (Bool × Option ℚ)),
      providerRun Volume.tick st (l1 ++ (false, x) :: l2) =
        providerRun Volume.tick st l1) ∧
    (∀ (translit : String → String) (st : Media.State)
        (x : Option (Option String × Option String) × Option (Bool × String))
        (l1 l2 : List (Bool × (Option (Option String × Option String) × Option (Bool × String)))),
      providerRun (fun s pi => Media.tick translit s pi.1 pi.2) st (l1 ++ (false, x) :: l2) =
        providerRun (fun s pi => Media.tick translit s pi.1 pi.2) st l1) :=
  ⟨fun layouts st x l1 l2 => providerRun_disconnect (Layout.tick layouts) l1 st x l2,
   fun st x l1 l2 => providerRun_disconnect Volume.tick l1 st x l2,
   fun translit st x l1 l2 =>
     providerRun_disconnect (fun s pi => Media.tick translit s pi.1 pi.2) l1 st x l2⟩

/-- Claim C8: when the raw-value threshold is exceeded and an emission is made
for raw reading `v`, `last_emitted_volume` is updated to exactly the raw `v`,
not to the quantized percentage. -/
theorem volume_state_stores_raw (synced_volume v : ℚ)
    (hthr : |v - synced_volume| > Volume.MIN_VOLUME_CHANGE)
    (_hemit : (Volume.tick synced_volume (some v)).1 ≠ []) :
    (Volume.tick synced_volume (some v)).2 = v := by
  simp only [Volume.tick]
  rw [if_pos hthr]

/-- Witness for `volume_state_stores_raw`: reading 31/100 from last-emitted
1/5 (threshold exceeded, frame emitted) stores the raw 31/100. -/
theorem volume_state_stores_raw_witness :
    (Volume.tick (1/5) (some (31/100))).2 = 31/100 := by
  apply volume_state_stores_raw
  · norm_num [Volume.MIN_VOLUME_CHANGE, abs_of_nonneg]
  · exact (volume_tick_emits_iff (1/5) (31/100)).mpr
      ⟨by norm_num [Volume.MIN_VOLUME_CHANGE, abs_of_nonneg],
       roundToU8_gt_one_of _ (by norm_num [Volume.MIN_VOLUME_CHANGE])⟩

/-- Claim C9: `last_emitted_volume` starts at 0.0 (`initial_volume`), so the
very first observed reading `v` produces a frame iff `v` strictly exceeds 0.05;
and a stable reading of 0.05 or below never produces any frame over a whole
run of any length. -/
theorem volume_initial_emission :
    (∀ v : ℚ, (Volume.tick Volume.initial_volume (some v)).1 ≠ [] ↔
      v > Volume.MIN_VOLUME_CHANGE) ∧
    (∀ c : ℚ, c ≤ Volume.MIN_VOLUME_CHANGE → ∀ n : ℕ,
      Volume.runFrames Volume.initial_volume (List.replicate n (some c)) = []) := by
  constructor
  · intro v
    rw [volume_tick_emits_iff]
    constructor
    · rintro ⟨habs, hpct⟩
      have hpos : 0 < v := by
        by_contra hnp
        push_neg at hnp
        exact absurd hpct (roundToU8_le_one_of_nonpos v hnp)
      rwa [show Volume.initial_volume = 0 from rfl, sub_zero, abs_of_pos hpos] at habs
    · intro hv
      refine ⟨?_, roundToU8_gt_one_of v hv⟩
      rw [show Volume.initial_volume = 0 from rfl, sub_zero]
      have hpos : 0 < v := by
        have : (0:ℚ) < Volume.MIN_VOLUME_CHANGE := by norm_num [Volume.MIN_VOLUME_CHANGE]
        linarith
      rwa [abs_of_pos hpos]
  · intro c hc n
    exact volume_run_const_aux c hc n Volume.initial_volume (Or.inl rfl)

/-- Witness for `volume_initial_emission`: from the initial state, reading 1/10
emits, and a run of three straight readings of exactly 1/20 emits nothing. -/
theorem volume_initial_emission_witness :
    (Volume.tick Volume.initial_volume (some (1/10))).1 ≠ [] ∧
    Volume.runFrames Volume.initial_volume (List.replicate 3 (some (1/20))) = [] :=
  ⟨(volume_initial_emission.1 (1/10)).mpr (by norm_num [Volume.MIN_VOLUME_CHANGE]),
   volume_initial_emission.2 (1/20) (by norm_num [Volume.MIN_VOLUME_CHANGE]) 3⟩

/-! ### Claim theorems for the Layout provider -/

/-- Claim C1, counterexample to the claim as stated: catalog `["en"]`, stored
last-emitted code `""`, OS identifier resolving to `"ru"` (absent from the
catalog). No frame is emitted, but the stored code is updated to `"ru"` rather
than left unchanged — the source assigns `synced_layout` before `send_data`
performs the catalog lookup. -/
theorem layout_catalog_miss_counterexample :
    Layout.get_keyboard_layout_code "com.apple.keylayout.Russian" = some "ru" ∧
    ("ru" ∈ ["en"]) = False ∧
    (Layout.tick ["en"] "" (some "com.apple.keylayout.Russian")).1 = [] ∧
    (Layout.tick ["en"] "" (some "com.apple.keylayout.Russian")).2 = "ru" := by
  refine ⟨by decide, by simp, by decide, by decide⟩

/-- Claim C1 (amended): on a poll tick where the resolved language code differs
from the stored last-emitted code but is absent from the configured catalog, no
frame is emitted, yet the stored last-emitted code IS updated to the resolved
code (so the unresolvable code is not retried, and not re-logged, while the OS
layout stays the same). -/
theorem layout_catalog_miss_no_emission (layouts : List String)
    (synced_layout os_layout layout_code : String)
    (hres : Layout.get_keyboard_layout_code os_layout = some layout_code)
    (hne : synced_layout ≠ layout_code)
    (hmem : layout_code ∉ layouts) :
    Layout.tick layouts synced_layout (some os_layout) = ([], layout_code) := by
  have hidx : layouts.findIdx? (fun r => r == layout_code) = none := by
    rw [List.findIdx?_eq_none_iff]
    intro x hx
    exact beq_eq_false_iff_ne.mpr (fun he => hmem (he ▸ hx))
  simp only [Layout.tick, hres]
  rw [if_pos hne]
  simp [Layout.send_data, hidx]

/-- Witness for `layout_catalog_miss_no_emission` at the concrete catalog-miss
scenario of the counterexample. -/
theorem layout_catalog_miss_no_emission_witness :
    Layout.tick ["en"] "" (some "com.apple.keylayout.Russian") = ([], "ru") :=
  layout_catalog_miss_no_emission ["en"] "" "com.apple.keylayout.Russian" "ru"
    (by decide) (by decide) (by decide)

/-- Claim C7: with catalog `["en", "ru"]`, OS identifier
`com.apple.keylayout.Russian` and empty last-emitted code, the provider pushes
exactly the two-byte frame `[0x00, 0x01]` (Layout tag, then the catalog
position of `"ru"`), and stores `"ru"`. -/
theorem layout_end_to_end_example :
    Layout.tick ["en", "ru"] "" (some "com.apple.keylayout.Russian") = ([[0, 1]], "ru") := by
  decide

/-! ### Claim theorems for the Media provider -/

/-- Claim C2, counterexample to the claim as stated: for a 256-byte payload the
length byte is `256 % 256 = 0` (`data.len() as u8` truncates), so the total
frame length (258) is not `2 + length_byte`; the claimed shape fails for input
strings whose payload exceeds 255 bytes, as the commented-out `truncate(30)`
line leaves nothing to bound it. -/
theorem media_frame_length_counterexample :
    (strBytes (String.mk (List.replicate 256 'a'))).length = 256 ∧
    (Media.send_data DataType.MediaArtist (String.mk (List.replicate 256 'a'))).length ≠
      2 + (Media.send_data DataType.MediaArtist (String.mk (List.replicate 256 'a')))[1]! := by
  refine ⟨by decide, by decide⟩

/-- Claim C2 (amended): the encoded MediaArtist/MediaTitle frame is
`[kind_byte, length_byte, ...payload_bytes]` with `length_byte` the payload
byte count reduced mod 256; whenever the payload byte count fits in a single
byte (the spec's stated invariant), the length byte equals the payload length
exactly and the total frame length is `2 + length_byte`. -/
theorem media_frame_shape (data_type : DataType) (value : String)
    (h : (strBytes value).length ≤ 255) :
    Media.send_data data_type value =
      dataTypeByte data_type :: (strBytes value).length :: strBytes value ∧
    (Media.send_data data_type value).length = 2 + (strBytes value).length ∧
    (Media.send_data data_type value)[1]! = (strBytes value).length := by
  have hmod : (strBytes value).length % 256 = (strBytes value).length :=
    Nat.mod_eq_of_lt (by omega)
  refine ⟨?_, ?_, ?_⟩
  · simp [Media.send_data, hmod]
  · simp only [Media.send_data, List.length_cons]
    omega
  · simp [Media.send_data, hmod]

/-- Witness for `media_frame_shape` at the three-byte payload `"abc"`. -/
theorem media_frame_shape_witness :
    Media.send_data DataType.MediaTitle "abc" = [3, 3, 97, 98, 99] ∧
    (Media.send_data DataType.MediaTitle "abc").length = 2 + 3 := by
  have h := media_frame_shape DataType.MediaTitle "abc" (by decide)
  refine ⟨?_, ?_⟩
  · rw [h.1]
    decide
  · rw [h.2.1]
    decide

/-- Claim C5: artist and title are compared and emitted independently — with
the normalized artist unchanged and the normalized title changed, exactly one
frame (MediaTitle) is pushed and no MediaArtist frame; with both changed,
exactly two frames are pushed, the MediaArtist frame first. -/
theorem media_change_independence (translit : String → String)
    (new_artist new_title last_artist last_title : String) :
    (translit new_artist = last_artist → translit new_title ≠ last_title →
      (Media.send_media_data translit (some new_artist) (some new_title)
          last_artist last_title).1 =
        [Media.send_data DataType.MediaTitle (translit new_title)]) ∧
    (translit new_artist ≠ last_artist → translit new_title ≠ last_title →
      (Media.send_media_data translit (some new_artist) (some new_title)
          last_artist last_title).1 =
        [Media.send_data DataType.MediaArtist (translit new_artist),
         Media.send_data DataType.MediaTitle (translit new_title)]) := by
  constructor
  · intro ha ht
    simp [Media.send_media_data, ha, ht]
  · intro ha ht
    simp [Media.send_media_data, ha, ht]

/-- Witness for `media_change_independence`: with the identity transliteration,
artist `"a"` unchanged and title `"t"` changed yields only the title frame;
artist `"b"` changed and title `"t"` changed yields both frames, artist first. -/
theorem media_change_independence_witness :
    (Media.send_media_data id (some "a") (some "t") "a" "s").1 =
      [Media.send_data DataType.MediaTitle "t"] ∧
    (Media.send_media_data id (some "b") (some "t") "a" "s").1 =
      [Media.send_data DataType.MediaArtist "b", Media.send_data DataType.MediaTitle "t"] :=
  ⟨(media_change_independence id "a" "t" "a" "s").1 rfl (by decide),
   (media_change_independence id "b" "t" "a" "s").2 (by decide) (by decide)⟩

theorem media_tick_latched_ignores_primary (translit : String → String) (st : Media.State)
    (h : st.use_apple_script = true)
    (p p2 : Option (Option String × Option String)) (sp : Option (Bool × String)) :
    Media.tick translit st p sp = Media.tick translit st p2 sp := by
  simp [Media.tick, h]

theorem media_tick_latched_stays (translit : String → String) (st : Media.State)
    (p : Option (Option String × Option String)) (sp : Option (Bool × String))
    (h : st.use_apple_script = true) :
    (Media.tick translit st p sp).2.use_apple_script = true := by
  simp only [Media.tick, h, if_true]
  cases hm : Media.get_now_playing_via_applescript sp with
  | none => simp [h]
  | some pair =>
    obtain ⟨a, t⟩ := pair
    simp [h]

theorem media_run_latched_stays (translit : String → String) :
    ∀ (inputs : List (Option (Option String × Option String) × Option (Bool × String)))
      (st : Media.State), st.use_apple_script = true →
      (Media.run translit st inputs).2.use_apple_script = true := by
  intro inputs
  induction inputs with
  | nil =>
    intro st h
    simpa [Media.run] using h
  | cons hd tl ih =>
    intro st h
    obtain ⟨p, sp⟩ := hd
    simp only [Media.run]
    exact ih _ (media_tick_latched_stays translit st p sp h)

theorem media_run_ignores_primary (translit : String → String) :
    ∀ (inputs inputs2 : List (Option (Option String × Option String) × Option (Bool × String))),
      inputs.map Prod.snd = inputs2.map Prod.snd →
      ∀ st : Media.State, st.use_apple_script = true →
        Media.run translit st inputs = Media.run translit st inputs2 := by
  intro inputs
  induction inputs with
  | nil =>
    intro inputs2 hm st _
    cases inputs2 with
    | nil => rfl
    | cons hd2 tl2 => simp at hm
  | cons hd tl ih =>
    intro inputs2 hm st h
    cases inputs2 with
    | nil => simp at hm
    | cons hd2 tl2 =>
      obtain ⟨p, sp⟩ := hd
      obtain ⟨p2, sp2⟩ := hd2
      simp only [List.map_cons, List.cons.injEq] at hm
      obtain ⟨hsp, htl⟩ := hm
      subst hsp
      simp only [Media.run]
      rw [media_tick_latched_ignores_primary translit st h p p2 sp]
      rw [ih tl2 htl _ (media_tick_latched_stays translit st p2 sp h)]

/-- Claim C4: the first time the primary strategy fails to yield a complete
(artist, title) pair, the `USE_APPLE_SCRIPT` latch is set; it then stays set
for every subsequent tick of the run, and from a latched state the whole rest
of the run is independent of what the primary strategy would have returned —
the primary source is never consulted again. -/
theorem media_fallback_latch_permanent (translit : String → String) (st : Media.State)
    (primary : Option (Option String × Option String)) (spawn_result : Option (Bool × String))
    (h : st.use_apple_script = false) (hp : Media.primaryIncomplete primary) :
    (Media.tick translit st primary spawn_result).2.use_apple_script = true ∧
    (∀ inputs, (Media.run translit (Media.tick translit st primary spawn_result).2
        inputs).2.use_apple_script = true) ∧
    (∀ inputs inputs2, inputs.map Prod.snd = inputs2.map Prod.snd →
      Media.run translit (Media.tick translit st primary spawn_result).2 inputs =
        Media.run translit (Media.tick translit st primary spawn_result).2 inputs2) := by
  have hset : (Media.tick translit st primary spawn_result).2.use_apple_script = true := by
    rcases hp with hnone | ⟨a, t, hpr, hat⟩
    · subst hnone
      simp [Media.tick, h]
    · subst hpr
      have hopt : (a.isNone || t.isNone) = true := by
        rcases hat with ha | ht
        · subst ha; simp
        · subst ht; simp
      simp [Media.tick, h, hopt]
  exact ⟨hset, fun inputs => media_run_latched_stays translit inputs _ hset,
    fun inputs inputs2 hm => media_run_ignores_primary translit inputs inputs2 hm _ hset⟩

/-- Witness for `media_fallback_latch_permanent`: from an unlatched state, a
tick with no now-playing dictionary sets the latch; it survives a further tick,
and the further run's outcome is unchanged when the primary observation is
replaced (successful primary included) while the fallback observation is kept. -/
theorem media_fallback_latch_permanent_witness :
    (Media.tick id (Media.State.mk false "" "") none none).2.use_apple_script = true ∧
    (Media.run id (Media.tick id (Media.State.mk false "" "") none none).2
        [(some (some "x", some "y"), none)]).2.use_apple_script = true ∧
    Media.run id (Media.tick id (Media.State.mk false "" "") none none).2
        [(some (some "x", some "y"), none)] =
      Media.run id (Media.tick id (Media.State.mk false "" "") none none).2
        [(none, none)] := by
  have h := media_fallback_latch_permanent id (Media.State.mk false "" "") none none rfl
    (Or.inl rfl)
  exact ⟨h.1, h.2.1 _, h.2.2 _ _ (by decide)⟩

theorem splitOnChar_ne_nil (c : Char) : ∀ l : List Char, Media.splitOnChar c l ≠ [] := by
  intro l
  cases l with
  | nil => simp [Media.splitOnChar]
  | cons x xs =>
    simp only [Media.splitOnChar]
    by_cases hx : x = c
    · rw [if_pos hx]
      simp
    · rw [if_neg hx]
      simp

theorem splitOnChar_length (c : Char) :
    ∀ l : List Char, (Media.splitOnChar c l).length = l.count c + 1 := by
  intro l
  induction l with
  | nil => rfl
  | cons x xs ih =>
    simp only [Media.splitOnChar]
    by_cases hx : x = c
    · rw [if_pos hx]
      have hcount : List.count c (x :: xs) = List.count c xs + 1 := by
        rw [List.count_cons, hx]
        simp
      rw [hcount]
      simp only [List.length_cons]
      omega
    · rw [if_neg hx]
      have hcount : List.count c (x :: xs) = List.count c xs := by
        rw [List.count_cons]
        have hbe : (c == x) = false := by
          rw [beq_eq_false_iff_ne]
          exact fun he => hx he.symm
        simp [hbe, hx]
      rw [hcount]
      simp only [List.length_cons]
      have htail : (Media.splitOnChar c xs).length = (Media.splitOnChar c xs).tail.length + 1 := by
        cases hr : Media.splitOnChar c xs with
        | nil => exact absurd hr (splitOnChar_ne_nil c xs)
        | cons a b => simp
      omega

/-- Claim C10: the fallback strategy yields an (artist, title) pair iff the
scripting host call succeeds with non-empty trimmed standard output that splits
on the pipe character into exactly two parts — equivalently, whose trimmed
output contains exactly one pipe character; zero or two-plus pipes (e.g. a
field itself containing a pipe) is a fallback failure. -/
theorem media_fallback_parse_iff (spawn_result : Option (Bool × String)) :
    (Media.get_now_playing_via_applescript spawn_result).isSome = true ↔
      ∃ stdout : String, spawn_result = some (true, stdout) ∧
        (Media.strTrim stdout).data ≠ [] ∧
        (Media.strTrim stdout).data.count '|' = 1 := by
  match spawn_result with
  | none =>
    simp [Media.get_now_playing_via_applescript, Media.execute_applescript]
  | some (false, stdout) =>
    simp [Media.get_now_playing_via_applescript, Media.execute_applescript]
  | some (true, stdout) =>
    have hlen := splitOnChar_length '|' (Media.strTrim stdout).data
    by_cases he : (Media.strTrim stdout).data.isEmpty
    · have hg : Media.get_now_playing_via_applescript (some (true, stdout)) = none := by
        simp [Media.get_now_playing_via_applescript, Media.execute_applescript, he]
      rw [hg]
      simp only [Option.isSome_none]
      constructor
      · intro hfalse
        cases hfalse
      · rintro ⟨stdout2, heq, hne, _⟩
        injection heq with heq2
        injection heq2 with _ heq3
        subst heq3
        exact (hne (List.isEmpty_iff.mp he)).elim
    · rcases hp : Media.splitOnChar '|' (Media.strTrim stdout).data with _ | ⟨p0, _ | ⟨p1, _ | ⟨p2, t2⟩⟩⟩
      · rw [hp] at hlen
        simp at hlen
      · have hg : Media.get_now_playing_via_applescript (some (true, stdout)) = none := by
          simp [Media.get_now_playing_via_applescript, Media.execute_applescript, he, hp]
        rw [hg]
        rw [hp] at hlen
        simp only [Option.isSome_none, List.length_cons, List.length_nil] at hlen ⊢
        constructor
        · intro hfalse
          cases hfalse
        · rintro ⟨stdout2, heq, _, hcount⟩
          injection heq with heq2
          injection heq2 with _ heq3
          subst heq3
          omega
      · have hg : Media.get_now_playing_via_applescript (some (true, stdout)) =
            some (String.mk p0, String.mk p1) := by
          simp [Media.get_now_playing_via_applescript, Media.execute_applescript, he, hp]
        rw [hg]
        rw [hp] at hlen
        simp only [List.length_cons, List.length_nil] at hlen
        simp only [Option.isSome_some, true_iff]
        refine ⟨stdout, rfl, fun hnil => he (List.isEmpty_iff.mpr hnil), by omega⟩
      · have hg : Media.get_now_playing_via_applescript (some (true, stdout)) = none := by
          simp [Media.get_now_playing_via_applescript, Media.execute_applescript, he, hp]
        rw [hg]
        rw [hp] at hlen
        simp only [Option.isSome_none, List.length_cons] at hlen ⊢
        constructor
        · intro hfalse
          cases hfalse
        · rintro ⟨stdout2, heq, _, hcount⟩
          injection heq with heq2
          injection heq2 with _ heq3
          subst heq3
          omega
